import Mathlib

/-!
Verification development for the 3d-models-glb generator pipeline:
a shallow embedding of the evaluator / normalizer (`src/utils/threeHelpers.ts`),
the resource-lifecycle and wireframe logic (`src/components/ScenePreview.tsx`),
and the application state machine (`src/App.tsx`), together with theorems
settling the claims of the spec about them.
-/

namespace Gen3D

/-- A material descriptor: identity plus the mutable rendering flags that the
wireframe toggle touches (`mat.wireframe`, `mat.needsUpdate`). -/
structure MaterialState where
  matId : Nat
  wireframe : Bool
  needsUpdate : Bool
deriving DecidableEq, Repr

/-- In three.js, child.material is either a single material or an array of
materials; both disposal and the wireframe toggle handle the two shapes. -/
inductive MaterialSlot where
  | single (m : MaterialState)
  | array (ms : List MaterialState)
deriving DecidableEq, Repr

/-- The drawable payload of a `THREE.Mesh`: a geometry buffer (by id) and its
material slot. -/
structure MeshData where
  geomId : Nat
  mats : MaterialSlot
deriving DecidableEq, Repr

/-- A `THREE.Object3D` tree as the pipeline distinguishes it:
`group` is a `THREE.Group`, `mesh` is a `THREE.Mesh` (with children, as any
Object3D may have), `plain` is any other `THREE.Object3D`. -/
inductive Obj where
  | group (children : List Obj)
  | mesh (data : MeshData) (children : List Obj)
  | plain (children : List Obj)
deriving Repr

/-- Test for instanceof THREE.Group. -/
def isGroup : Obj → Bool
  | .group _ => true
  | _ => false

/-- Test for instanceof THREE.Mesh. -/
def isMesh : Obj → Bool
  | .mesh _ _ => true
  | _ => false

/-- The material list a `forEach` over `Array.isArray(child.material) ?
child.material : [child.material]` iterates. -/
def matList : MaterialSlot → List MaterialState
  | .single m => [m]
  | .array ms => ms

mutual

/-- All geometry-buffer ids of the drawable leaves of a tree, in
`Object3D.traverse` (pre-)order. -/
def geoms : Obj → List Nat
  | .group cs => geomsList cs
  | .mesh d cs => d.geomId :: geomsList cs
  | .plain cs => geomsList cs

/-- Extension of `geoms` to a child list. -/
def geomsList : List Obj → List Nat
  | [] => []
  | o :: os => geoms o ++ geomsList os

end

mutual

/-- All material descriptors attached to drawable leaves of a tree, in
traversal order (array slots flattened). -/
def mats : Obj → List MaterialState
  | .group cs => matsList cs
  | .mesh d cs => matList d.mats ++ matsList cs
  | .plain cs => matsList cs

/-- Extension of `mats` to a child list. -/
def matsList : List Obj → List MaterialState
  | [] => []
  | o :: os => mats o ++ matsList os

end

/-! ## Sandboxed evaluator (`executeGeneratedCode`, src/utils/threeHelpers.ts 7-42)

Evaluating an arbitrary JavaScript string is not embeddable; what is embeddable
is the case analysis the function performs on the stages of that evaluation.
An `EvalOutcome` records how `new Function(...)()`, the `typeof` check, and the
invocation with the `THREE` namespace turn out for a given code string. -/

/-- What invoking the compiled generator function does. -/
inductive FnBehavior where
  | throws
  | returns (r : Option Obj)

/-- The value `new Function(\x7breturn $\x7bcode\x7d\x7d)()` produced. -/
inductive JSValue where
  | fn (b : FnBehavior)
  | notFn

/-- Outcome of compiling the generated text: the `new Function` call itself may
throw (malformed program), or produce a value. -/
inductive EvalOutcome where
  | compileError
  | value (v : JSValue)

/-- The body of the `try` block of `executeGeneratedCode`: each `throw` (or fault of
the evaluated code) is an `Except.error`; `Except.ok` is a value `return`ed
before the catch. Transcribed from src/utils/threeHelpers.ts lines 8-36:
the non-Group non-Mesh branch wraps any other `Object3D` in a fresh
`THREE.Group` and throws for anything else; after it, a `Group` is returned
as is and a `Mesh` is wrapped in a fresh `THREE.Group`. -/
def executeBody : EvalOutcome → Except String Obj
  | .compileError => .error "compile error"
  | .value .notFn => .error "Generated code did not return a function."
  | .value (.fn .throws) => .error "runtime fault during invocation"
  | .value (.fn (.returns none)) =>
      .error "Function did not return a valid THREE.Group or Object3D."
  | .value (.fn (.returns (some o))) =>
      if !isGroup o && !isMesh o then
        .ok (Obj.group [o])
      else if isGroup o then
        .ok o
      else
        .ok (Obj.group [o])

/-- The function `executeGeneratedCode`: the `catch` turns every fault into
`null` (here `none`) after logging. -/
def executeGeneratedCode (e : EvalOutcome) : Option Obj :=
  match executeBody e with
  | .ok g => some g
  | .error _ => none

/-- The four failure conditions of the claim: compilation fails, the compiled
value is not invocable, invocation throws, or the returned value is not a
valid renderable (`Object3D`). -/
def isFault : EvalOutcome → Bool
  | .compileError => true
  | .value .notFn => true
  | .value (.fn .throws) => true
  | .value (.fn (.returns none)) => true
  | .value (.fn (.returns (some _))) => false

/-! ## Wireframe toggle (`ModelObject`, src/components/ScenePreview.tsx 26-41)

`group.traverse` visits every node; for each `THREE.Mesh` it sets
`mat.wireframe = wireframe; mat.needsUpdate = true` on each material of the
slot (array or single, uniformly). Geometry is untouched. -/

/-- Effect of the toggle on one material descriptor. -/
def setMat (f : Bool) (m : MaterialState) : MaterialState :=
  { matId := m.matId, wireframe := f, needsUpdate := true }

/-- Effect of the toggle on a material slot. -/
def setSlot (f : Bool) : MaterialSlot → MaterialSlot
  | .single m => .single (setMat f m)
  | .array ms => .array (ms.map (setMat f))

mutual

/-- The `ModelObject` effect: traverse the tree, updating the materials of
every mesh. -/
def setWireframe (f : Bool) : Obj → Obj
  | .group cs => .group (setWireframeList f cs)
  | .mesh d cs => .mesh ⟨d.geomId, setSlot f d.mats⟩ (setWireframeList f cs)
  | .plain cs => .plain (setWireframeList f cs)

/-- Extension of `setWireframe` to a child list. -/
def setWireframeList (f : Bool) : List Obj → List Obj
  | [] => []
  | o :: os => setWireframe f o :: setWireframeList f os

end

/-! ## Resource release (`GeneratedObject` effect cleanup, ScenePreview.tsx 55-66)

The cleanup traverses the generated group; for every `THREE.Mesh` it calls
`child.geometry.dispose()` and `dispose()` on each material (array or single).
We record the individual release calls as events. -/

/-- One resource release call: a geometry buffer or a material descriptor. -/
inductive Release where
  | geom (id : Nat)
  | mat (id : Nat)
deriving DecidableEq, Repr

mutual

/-- The release calls the cleanup issues for a tree, in traversal order. -/
def disposeCalls : Obj → List Release
  | .group cs => disposeList cs
  | .mesh d cs =>
      Release.geom d.geomId :: ((matList d.mats).map (fun m => Release.mat m.matId)
        ++ disposeList cs)
  | .plain cs => disposeList cs

/-- Extension of `disposeCalls` to a child list. -/
def disposeList : List Obj → List Release
  | [] => []
  | o :: os => disposeCalls o ++ disposeList os

end

/-! ## Component effect lifecycle (`GeneratedObject`, ScenePreview.tsx 43-74)

React runs the effect body on mount and whenever its dependencies change, and
runs the cleanup returned by the previous run first (and once more on
unmount). A run with empty `code` returns early; a run whose
`executeGeneratedCode` yields `null` registers no cleanup; a successful run
stores the group (`setGroup`), hands it to `onLoaded`, and registers a cleanup
that disposes exactly that group. -/

/-- Evaluation oracle: the outcome of evaluating a given code string.
JavaScript evaluation of an arbitrary string is not embeddable, but it is a
deterministic function of the string, which is all the lifecycle theorems
need. -/
def EvalOracle := List Char → EvalOutcome

/-- Lifecycle state of one `GeneratedObject` instance, with ghost fields
recording every scene ever made current and every release call issued. -/
structure CompState where
  pendingCleanup : Option Obj
  groupState : Option Obj
  madeCurrent : List Obj
  released : List Release

/-- Run the pending cleanup, if the previous effect run registered one. -/
def runCleanup (s : CompState) : CompState :=
  match s.pendingCleanup with
  | some g => { s with released := s.released ++ disposeCalls g, pendingCleanup := none }
  | none => s

/-- One execution of the effect body (preceded, per React, by the cleanup of the
previous run). -/
def effectRun (oracle : EvalOracle) (s : CompState) (code : List Char) : CompState :=
  let s1 := runCleanup s
  if code.isEmpty then s1
  else
    match executeGeneratedCode (oracle code) with
    | some g =>
        { s1 with pendingCleanup := some g, groupState := some g,
                  madeCurrent := s1.madeCurrent ++ [g] }
    | none => s1

/-- Unmount: React runs the last registered cleanup. -/
def unmount (s : CompState) : CompState := runCleanup s

/-- The freshly mounted component. -/
def initComp : CompState := ⟨none, none, [], []⟩

/-- A whole component lifetime: a sequence of effect runs, then unmount. -/
def runLifetime (oracle : EvalOracle) (codes : List (List Char)) : CompState :=
  unmount (codes.foldl (effectRun oracle) initComp)

/-! ## Exporter (`exportToBinaryGLB`, src/utils/threeHelpers.ts 70-88)

`GLTFExporter.parse` either calls the success callback with a result (an
`ArrayBuffer` in the binary case, a JSON document object otherwise) or calls
the error callback. The embedding records the files saved and the console
events emitted. -/

/-- What the exporter handed to the success callback. -/
inductive ExporterResult where
  | buffer (bytes : List Nat)
  | jsonDoc (doc : String)

/-- Outcome of `exporter.parse` on a scene. -/
inductive ExportOutcome where
  | done (r : ExporterResult)
  | err (msg : String)

/-- Payload of a saved file. -/
inductive Payload where
  | bin (bytes : List Nat)
  | text (s : String)
deriving DecidableEq

/-- A file the `save` helper persisted: name, Blob MIME type, payload. -/
structure SavedFile where
  filename : String
  mime : String
  payload : Payload
deriving DecidableEq

/-- A console event. -/
inductive LogEvent where
  | warn (msg : String)
  | error (msg : String)
deriving DecidableEq

/-- The function `exportToBinaryGLB` at `name`: given how `parse` turned out, the files saved and
the logs emitted. `ArrayBuffer` results go through `saveArrayBuffer`
(`application/octet-stream`, `.glb`); any other result is stringified and goes
through `saveString` (`text/plain`, `.gltf`) after a console warning; the
error callback only logs. -/
def exportToBinaryGLB (name : String) (outcome : ExportOutcome) :
    List SavedFile × List LogEvent :=
  match outcome with
  | .done (.buffer b) =>
      ([⟨name ++ ".glb", "application/octet-stream", .bin b⟩], [])
  | .done (.jsonDoc d) =>
      ([⟨name ++ ".gltf", "text/plain", .text d⟩],
       [.warn "Exporter did not return ArrayBuffer, falling back to JSON"])
  | .err m => ([], [.error m])

/-! ## Filename sanitization (`handleDownload`, src/App.tsx 101-107)

The source replaces every character outside the class a-z, 0-9 (case
insensitive) with an underscore, lower-cases, takes the first 20 characters
(substring), and falls back to "model" on an empty result. JavaScript strings
are modelled as their character sequences. -/

/-- Membership in the character class `[a-z0-9]` with the `i` flag, i.e. ASCII
letters and digits. -/
def isAsciiAlphanum (c : Char) : Bool :=
  (('a' ≤ c && c ≤ 'z') || ('A' ≤ c && c ≤ 'Z') || ('0' ≤ c && c ≤ '9'))

/-- The filename derivation of `handleDownload`. -/
def sanitizeFilename (prompt : List Char) : List Char :=
  let replaced := prompt.map (fun c => if isAsciiAlphanum c then c else '_')
  let lowered := replaced.map Char.toLower
  let truncated := lowered.take 20
  if truncated.isEmpty then "model".toList else truncated

/-! ## Application state machine (src/App.tsx)

The generator-mode state of `App`, with each event handler an atomic state
transformation (the browser event loop is single-threaded; the only suspension
point is the awaited remote call, modelled by splitting `handleGenerate` into
its synchronous prefix and the resumption after the `await`). Abort
controllers are numbered; `abortedCtrls` is the set of controllers whose
signal has been aborted. -/

/-- The `GenerationStatus` enum (src/types). -/
inductive GenerationStatus where
  | idle
  | generating
  | success
  | error
deriving DecidableEq, Repr

/-- A `HistoryItem` record (src/types): id, prompt, code, creation time. -/
structure HistoryItem where
  id : Nat
  prompt : List Char
  code : List Char
  createdAt : Nat
deriving DecidableEq, Repr

/-- Generator-mode state of `App`. -/
structure AppState where
  status : GenerationStatus
  generatedCode : List Char
  currentModel : Option Obj
  history : List HistoryItem
  abortCtrl : Option Nat
  abortedCtrls : List Nat
  nextCtrlId : Nat

/-- JavaScript string trim: strip leading and trailing whitespace. -/
def jsTrim (l : List Char) : List Char :=
  ((l.dropWhile Char.isWhitespace).reverse.dropWhile Char.isWhitespace).reverse

/-- Synchronous prefix of `handleGenerate` (App.tsx 46-59): the empty-trim
guard, the abort of any previous controller, the fresh controller, and the
three state updates before the `await`. -/
def handleGenerateStart (s : AppState) (prompt : List Char) : AppState :=
  if (jsTrim prompt).isEmpty then s
  else
    { status := .generating
      generatedCode := []
      currentModel := none
      history := s.history
      abortCtrl := some s.nextCtrlId
      abortedCtrls :=
        match s.abortCtrl with
        | some c => c :: s.abortedCtrls
        | none => s.abortedCtrls
      nextCtrlId := s.nextCtrlId + 1 }

/-- The `finally` block (App.tsx 86-90): clear the ref only if it still holds
the controller of this invocation. -/
def clearRefIfSame (c : Nat) (s : AppState) : AppState :=
  if s.abortCtrl = some c then { s with abortCtrl := none } else s

/-- Resumption of `handleGenerate` after `generate3DModelCode` resolves
successfully for the invocation owning controller `c` (App.tsx 63-78, 86-90):
if the signal of `c` is aborted, return (running only the `finally`);
otherwise publish the code, mark success, and prepend the history entry built
from the captured prompt of this invocation. -/
def handleGenerateResolve (s : AppState) (c : Nat) (prompt code : List Char)
    (now : Nat) : AppState :=
  if c ∈ s.abortedCtrls then clearRefIfSame c s
  else
    clearRefIfSame c
      { s with
        generatedCode := code
        status := .success
        history := ⟨now, prompt, code, now⟩ :: s.history }

/-- Resumption after the remote call rejects (App.tsx 80-90): aborted
invocations return silently; otherwise the status becomes `error`. -/
def handleGenerateReject (s : AppState) (c : Nat) : AppState :=
  if c ∈ s.abortedCtrls then clearRefIfSame c s
  else clearRefIfSame c { s with status := .error }

/-- The `handleStop` handler (App.tsx 93-99): abort the active controller, clear the ref,
reset the status to idle; a no-op when no controller is active. -/
def handleStop (s : AppState) : AppState :=
  match s.abortCtrl with
  | some c =>
      { s with abortedCtrls := c :: s.abortedCtrls, abortCtrl := none,
               status := .idle }
  | none => s

/-- One run of the `GeneratedObject` effect as it bears on the `App` state: with
non-empty code, a successful `executeGeneratedCode` publishes the group via
`onLoaded` (= `setCurrentModel`); an empty code or a failed evaluation
publishes nothing (ScenePreview.tsx 46-68, App.tsx 340-343). -/
def sceneEffect (oracle : EvalOracle) (s : AppState) : AppState :=
  if s.generatedCode.isEmpty then s
  else
    match executeGeneratedCode (oracle s.generatedCode) with
    | some g => { s with currentModel := some g }
    | none => s

/-- The events the generator-mode UI can fire. -/
inductive AppEvent where
  | genStart (prompt : List Char)
  | genResolve (ctrl : Nat) (prompt code : List Char) (now : Nat)
  | genReject (ctrl : Nat)
  | stop
  | sceneEval

/-- The application step function. -/
def stepApp (oracle : EvalOracle) (s : AppState) : AppEvent → AppState
  | .genStart p => handleGenerateStart s p
  | .genResolve c p code now => handleGenerateResolve s c p code now
  | .genReject c => handleGenerateReject s c
  | .stop => handleStop s
  | .sceneEval => sceneEffect oracle s

/-- Iterated steps. -/
def runApp (oracle : EvalOracle) (s : AppState) (es : List AppEvent) : AppState :=
  es.foldl (stepApp oracle) s

/-! ## Concrete instances used by witnesses and counterexamples -/

/-- A trivial evaluation oracle: every code string fails to compile. -/
def oracle0 : EvalOracle := fun _ => EvalOutcome.compileError

/-- A concrete current scene. -/
def sceneA : Obj := Obj.group []

/-- A concrete app state holding `sceneA` as the current model. -/
def appWithScene : AppState :=
  ⟨.success, ['c'], some sceneA, [], none, [], 0⟩

/-- A concrete app state with an in-flight generation owning controller 0. -/
def appInFlight : AppState :=
  ⟨.generating, [], none, [], some 0, [], 1⟩

/-! ## Theorems -/

/-- C2: for every evaluation outcome in a failure class — compilation failure,
non-invocable compiled value, a fault raised during invocation, or a returned
value that is not a valid renderable — `executeGeneratedCode` returns the
error result `none` (the `catch` logs and returns `null`); no fault
propagates to the caller. -/
theorem executeGeneratedCode_fault_returns_none (e : EvalOutcome)
    (h : isFault e = true) : executeGeneratedCode e = none := by
  cases e with
  | compileError => rfl
  | value v =>
    cases v with
    | notFn => rfl
    | fn b =>
      cases b with
      | throws => rfl
      | returns r =>
        cases r with
        | none => rfl
        | some o => simp [isFault] at h

/-- Witness for C2 at a concrete fault (compilation failure). -/
theorem executeGeneratedCode_fault_returns_none_witness :
    executeGeneratedCode .compileError = none :=
  executeGeneratedCode_fault_returns_none .compileError rfl

/-- C3: a returned value that is already a `THREE.Group` is passed through
normalization unchanged — the very same container with the same children. -/
theorem normalize_group_identity (cs : List Obj) :
    executeGeneratedCode (.value (.fn (.returns (some (.group cs)))))
      = some (Obj.group cs) := rfl

/-- C4: a returned `Object3D` that is not a `THREE.Group` (a mesh leaf or any
other attachable node) is wrapped in a newly created `THREE.Group` whose only
child is exactly that value. -/
theorem normalize_nonGroup_wraps (o : Obj) (h : isGroup o = false) :
    executeGeneratedCode (.value (.fn (.returns (some o))))
      = some (Obj.group [o]) := by
  cases o with
  | group cs => simp [isGroup] at h
  | mesh d cs => rfl
  | plain cs => rfl

/-- Witness for C4 at a concrete non-group node. -/
theorem normalize_nonGroup_wraps_witness :
    executeGeneratedCode (.value (.fn (.returns (some (.plain [])))))
      = some (Obj.group [Obj.plain []]) :=
  normalize_nonGroup_wraps (.plain []) rfl

/-- C8: `exportToBinaryGLB` saves `name ++ ".glb"` as `application/octet-stream`
when serialization yields an `ArrayBuffer`; otherwise it saves the JSON
serialization of the same parse result as `name ++ ".gltf"` after warning that
the fallback was taken; and on a serialization error it only logs — no file is
saved and the (total) function propagates nothing. -/
theorem exportToBinaryGLB_paths (name : String) :
    (∀ b, exportToBinaryGLB name (.done (.buffer b)) =
      ([⟨name ++ ".glb", "application/octet-stream", .bin b⟩], []))
  ∧ (∀ d, exportToBinaryGLB name (.done (.jsonDoc d)) =
      ([⟨name ++ ".gltf", "text/plain", .text d⟩],
       [.warn "Exporter did not return ArrayBuffer, falling back to JSON"]))
  ∧ (∀ m, exportToBinaryGLB name (.err m) = ([], [.error m])) :=
  ⟨fun _ => rfl, fun _ => rfl, fun _ => rfl⟩

/-- C9: the download base name is obtained by replacing every non-alphanumeric
character with `_`, lower-casing, and truncating to 20 characters, with the
default `model` exactly when that result is empty (equivalently, when the
prompt is empty, since replacement and lower-casing preserve length); the
result never exceeds 20 characters except for the 5-character default. -/
theorem sanitizeFilename_spec (p : List Char) :
    sanitizeFilename p =
      (if p = [] then "model".toList
       else ((p.map (fun c => if isAsciiAlphanum c then c else '_')).map
          Char.toLower).take 20)
  ∧ (sanitizeFilename p).length ≤ 20 := by
  constructor
  · by_cases hp : p = []
    · subst hp; simp [sanitizeFilename]
    · have hne : (((p.map fun c => if isAsciiAlphanum c then c else '_').map
          Char.toLower).take 20) ≠ [] := by
        simp only [ne_eq, List.take_eq_nil_iff, List.map_eq_nil_iff]
        push_neg
        exact ⟨by omega, hp⟩
      simp only [sanitizeFilename, List.isEmpty_iff, if_neg hne, if_neg hp]
  · simp only [sanitizeFilename, List.isEmpty_iff]
    split
    · decide
    · exact le_trans (List.length_take_le 20 _) (le_refl 20)

/-- C10: `handleGenerate` invoked while the trimmed prompt is empty is a
complete no-op — the state (status, code, current model, history, abort
bookkeeping) is returned unchanged, so no request is issued and no in-flight
controller is aborted. -/
theorem handleGenerateStart_blank_noop (s : AppState) (p : List Char)
    (h : jsTrim p = []) : handleGenerateStart s p = s := by
  simp [handleGenerateStart, h]

/-- Witness for C10 at a whitespace-only prompt. -/
theorem handleGenerateStart_blank_noop_witness :
    handleGenerateStart appWithScene [' '] = appWithScene :=
  handleGenerateStart_blank_noop appWithScene [' '] (by decide)

/-! ### Wireframe toggle lemmas (for C7) -/

theorem setMat_setMat (f f' : Bool) (m : MaterialState) :
    setMat f (setMat f' m) = setMat f m := rfl

theorem setSlot_setSlot (f f' : Bool) (sl : MaterialSlot) :
    setSlot f (setSlot f' sl) = setSlot f sl := by
  cases sl with
  | single m => rfl
  | array ms =>
    simp only [setSlot, List.map_map]
    congr 1

mutual

theorem setWireframe_setWireframe (f f' : Bool) :
    ∀ o : Obj, setWireframe f (setWireframe f' o) = setWireframe f o
  | .group cs => by
      simp only [setWireframe, setWireframeList_setWireframeList f f' cs]
  | .mesh d cs => by
      simp only [setWireframe, setWireframeList_setWireframeList f f' cs,
        setSlot_setSlot]
  | .plain cs => by
      simp only [setWireframe, setWireframeList_setWireframeList f f' cs]

theorem setWireframeList_setWireframeList (f f' : Bool) :
    ∀ l : List Obj, setWireframeList f (setWireframeList f' l) = setWireframeList f l
  | [] => rfl
  | o :: os => by
      simp only [setWireframeList, setWireframe_setWireframe f f' o,
        setWireframeList_setWireframeList f f' os]

end

mutual

theorem geoms_setWireframe (f : Bool) :
    ∀ o : Obj, geoms (setWireframe f o) = geoms o
  | .group cs => by
      simp only [setWireframe, geoms, geomsList_setWireframeList f cs]
  | .mesh d cs => by
      simp only [setWireframe, geoms, geomsList_setWireframeList f cs]
  | .plain cs => by
      simp only [setWireframe, geoms, geomsList_setWireframeList f cs]

theorem geomsList_setWireframeList (f : Bool) :
    ∀ l : List Obj, geomsList (setWireframeList f l) = geomsList l
  | [] => rfl
  | o :: os => by
      simp only [setWireframeList, geomsList, geoms_setWireframe f o,
        geomsList_setWireframeList f os]

end

theorem matList_setSlot (f : Bool) (sl : MaterialSlot) :
    matList (setSlot f sl) = (matList sl).map (setMat f) := by
  cases sl <;> rfl

mutual

theorem mats_setWireframe (f : Bool) :
    ∀ o : Obj, mats (setWireframe f o) = (mats o).map (setMat f)
  | .group cs => by
      simp only [setWireframe, mats, matsList_setWireframeList f cs]
  | .mesh d cs => by
      simp only [setWireframe, mats, matsList_setWireframeList f cs,
        matList_setSlot, List.map_append]
  | .plain cs => by
      simp only [setWireframe, mats, matsList_setWireframeList f cs]

theorem matsList_setWireframeList (f : Bool) :
    ∀ l : List Obj, matsList (setWireframeList f l) = (matsList l).map (setMat f)
  | [] => rfl
  | o :: os => by
      simp only [setWireframeList, matsList, mats_setWireframe f o,
        matsList_setWireframeList f os, List.map_append]

end

/-- C7: for every current scene (a scene on which the `ModelObject` effect has
applied the displayed flag `f`): toggling the flag on and back off restores the
observable material state exactly; the toggle never changes any geometry
buffer; it is idempotent; it sets the wireframe flag and the
`needsUpdate` render-state-refresh mark on every material descriptor of every
drawable leaf (single-material and array slots alike), touching no other
material field (the descriptor identities are preserved). -/
theorem setWireframe_toggle_spec (g : Obj) (f : Bool) :
    setWireframe f (setWireframe (!f) (setWireframe f g)) = setWireframe f g
  ∧ geoms (setWireframe f g) = geoms g
  ∧ setWireframe f (setWireframe f g) = setWireframe f g
  ∧ (mats (setWireframe f g)).all
      (fun m => m.wireframe == f && m.needsUpdate) = true
  ∧ (mats (setWireframe f g)).map MaterialState.matId
      = (mats g).map MaterialState.matId := by
  refine ⟨?_, geoms_setWireframe f g, setWireframe_setWireframe f f g, ?_, ?_⟩
  · rw [setWireframe_setWireframe f (!f), setWireframe_setWireframe f f]
  · rw [mats_setWireframe]
    rw [List.all_eq_true]
    intro m hm
    rw [List.mem_map] at hm
    obtain ⟨m', _, rfl⟩ := hm
    simp [setMat]
  · rw [mats_setWireframe, List.map_map]
    rfl

/-! ### Release-accounting lemmas (for C5) -/

/-- Multiplicity of a release call in an event list. -/
def countRel (r : Release) : List Release → Nat
  | [] => 0
  | x :: xs => (if x = r then 1 else 0) + countRel r xs

/-- Multiplicity of an id in an id list. -/
def countNat (n : Nat) : List Nat → Nat
  | [] => 0
  | x :: xs => (if x = n then 1 else 0) + countNat n xs

theorem countRel_append (r : Release) (l1 l2 : List Release) :
    countRel r (l1 ++ l2) = countRel r l1 + countRel r l2 := by
  induction l1 with
  | nil => simp [countRel]
  | cons x xs ih => simp [countRel, ih]; omega

theorem countNat_append (n : Nat) (l1 l2 : List Nat) :
    countNat n (l1 ++ l2) = countNat n l1 + countNat n l2 := by
  induction l1 with
  | nil => simp [countNat]
  | cons x xs ih => simp [countNat, ih]; omega

theorem countRel_geom_matMap (gid : Nat) (ms : List MaterialState) :
    countRel (Release.geom gid) (ms.map (fun m => Release.mat m.matId)) = 0 := by
  induction ms with
  | nil => rfl
  | cons m ms ih => simp [countRel, ih]

theorem countRel_mat_matMap (mid : Nat) (ms : List MaterialState) :
    countRel (Release.mat mid) (ms.map (fun m => Release.mat m.matId))
      = countNat mid (ms.map MaterialState.matId) := by
  induction ms with
  | nil => rfl
  | cons m ms ih => simp [countRel, countNat, ih, Release.mat.injEq]

theorem disposeList_append (l1 l2 : List Obj) :
    disposeList (l1 ++ l2) = disposeList l1 ++ disposeList l2 := by
  induction l1 with
  | nil => rfl
  | cons o os ih => simp [disposeList, ih]

mutual

theorem countRel_geom_disposeCalls (gid : Nat) :
    ∀ o : Obj, countRel (Release.geom gid) (disposeCalls o) = countNat gid (geoms o)
  | .group cs => countRel_geom_disposeList gid cs
  | .mesh d cs => by
      simp only [disposeCalls, geoms, countRel, countNat, countRel_append,
        countRel_geom_matMap, countRel_geom_disposeList gid cs, Release.geom.injEq]
      omega
  | .plain cs => countRel_geom_disposeList gid cs

theorem countRel_geom_disposeList (gid : Nat) :
    ∀ l : List Obj,
      countRel (Release.geom gid) (disposeList l) = countNat gid (geomsList l)
  | [] => rfl
  | o :: os => by
      simp only [disposeList, geomsList, countRel_append, countNat_append,
        countRel_geom_disposeCalls gid o, countRel_geom_disposeList gid os]

end

mutual

theorem countRel_mat_disposeCalls (mid : Nat) :
    ∀ o : Obj, countRel (Release.mat mid) (disposeCalls o)
      = countNat mid ((mats o).map MaterialState.matId)
  | .group cs => countRel_mat_disposeList mid cs
  | .mesh d cs => by
      simp only [disposeCalls, mats, countRel, countRel_append, List.map_append,
        countNat_append, countRel_mat_matMap, countRel_mat_disposeList mid cs,
        reduceCtorEq, if_false]
      omega
  | .plain cs => countRel_mat_disposeList mid cs

theorem countRel_mat_disposeList (mid : Nat) :
    ∀ l : List Obj, countRel (Release.mat mid) (disposeList l)
      = countNat mid ((matsList l).map MaterialState.matId)
  | [] => rfl
  | o :: os => by
      simp only [disposeList, matsList, countRel_append, List.map_append,
        countNat_append, countRel_mat_disposeCalls mid o,
        countRel_mat_disposeList mid os]

end

/-- The release calls the pending cleanup would issue. -/
def pendingDispose (s : CompState) : List Release :=
  match s.pendingCleanup with
  | some g => disposeCalls g
  | none => []

/-- Lifecycle invariant: releases issued so far plus the releases of the pending
cleanup account exactly, in order, for every scene ever made current. -/
def LifecycleInv (s : CompState) : Prop :=
  s.released ++ pendingDispose s = disposeList s.madeCurrent

theorem runCleanup_fields (s : CompState) :
    (runCleanup s).pendingCleanup = none
  ∧ (runCleanup s).released = s.released ++ pendingDispose s
  ∧ (runCleanup s).madeCurrent = s.madeCurrent := by
  unfold runCleanup pendingDispose
  cases h : s.pendingCleanup <;> simp [h]

theorem runCleanup_inv (s : CompState) (h : LifecycleInv s) :
    LifecycleInv (runCleanup s) := by
  obtain ⟨h1, h2, h3⟩ := runCleanup_fields s
  unfold LifecycleInv pendingDispose
  rw [h1, h2, h3, List.append_nil]
  exact h

theorem effectRun_inv (oracle : EvalOracle) (s : CompState) (code : List Char)
    (h : LifecycleInv s) : LifecycleInv (effectRun oracle s code) := by
  have h1 := runCleanup_inv s h
  obtain ⟨hp, _, _⟩ := runCleanup_fields s
  unfold effectRun
  by_cases hcode : code.isEmpty
  · simpa [hcode] using h1
  · simp only [hcode, if_false, Bool.false_eq_true]
    cases hex : executeGeneratedCode (oracle code) with
    | none => simpa [hex] using h1
    | some g =>
        unfold LifecycleInv pendingDispose at h1 ⊢
        rw [hp, List.append_nil] at h1
        simp only [hex, disposeList_append]
        rw [h1]
        simp [disposeList]

theorem foldl_effectRun_inv (oracle : EvalOracle) :
    ∀ (codes : List (List Char)) (s : CompState), LifecycleInv s →
      LifecycleInv (codes.foldl (effectRun oracle) s)
  | [], _, h => h
  | c :: cs, s, h =>
      foldl_effectRun_inv oracle cs (effectRun oracle s c) (effectRun_inv oracle s c h)

/-- C5: over any component lifetime (any sequence of effect runs — new
generations, code edits, re-renders — closed by the unmount cleanup), the
release calls issued are exactly, in order, the disposal traversals of the
scenes ever made current: the geometry buffers and
material descriptors of each made-current scene (single or array slots alike) are released, and for every
geometry id and material id the number of release calls equals the number of
times a leaf carrying it was made current — never zero, never twice. -/
theorem lifecycle_release_exact (oracle : EvalOracle) (codes : List (List Char)) :
    (runLifetime oracle codes).released
      = disposeList (runLifetime oracle codes).madeCurrent
  ∧ (∀ gid : Nat,
      countRel (Release.geom gid) (runLifetime oracle codes).released
        = countNat gid (geomsList (runLifetime oracle codes).madeCurrent))
  ∧ (∀ mid : Nat,
      countRel (Release.mat mid) (runLifetime oracle codes).released
        = countNat mid ((matsList (runLifetime oracle codes).madeCurrent).map
            MaterialState.matId)) := by
  have hinv0 : LifecycleInv initComp := rfl
  have hinv := foldl_effectRun_inv oracle codes initComp hinv0
  have hfin : LifecycleInv (runLifetime oracle codes) := runCleanup_inv _ hinv
  obtain ⟨hp, _, _⟩ := runCleanup_fields (codes.foldl (effectRun oracle) initComp)
  have hmain : (runLifetime oracle codes).released
      = disposeList (runLifetime oracle codes).madeCurrent := by
    unfold LifecycleInv pendingDispose at hfin
    rw [show (runLifetime oracle codes).pendingCleanup = none from hp] at hfin
    rw [List.append_nil] at hfin
    exact hfin
  refine ⟨hmain, fun gid => ?_, fun mid => ?_⟩
  · rw [hmain, countRel_geom_disposeList]
  · rw [hmain, countRel_mat_disposeList]

/-! ### App state-machine lemmas (for C1, C6) -/

theorem clearRefIfSame_fields (c : Nat) (s : AppState) :
    (clearRefIfSame c s).generatedCode = s.generatedCode
  ∧ (clearRefIfSame c s).status = s.status
  ∧ (clearRefIfSame c s).currentModel = s.currentModel
  ∧ (clearRefIfSame c s).history = s.history
  ∧ (clearRefIfSame c s).abortedCtrls = s.abortedCtrls := by
  unfold clearRefIfSame
  split <;> simp

/-- No event ever un-aborts a controller: `abortedCtrls` only grows. -/
theorem abortedCtrls_mono (oracle : EvalOracle) (s : AppState) (e : AppEvent)
    (c : Nat) (h : c ∈ s.abortedCtrls) : c ∈ (stepApp oracle s e).abortedCtrls := by
  cases e with
  | genStart p =>
      show c ∈ (handleGenerateStart s p).abortedCtrls
      unfold handleGenerateStart
      split
      · exact h
      · cases hac : s.abortCtrl
        · simpa [hac] using h
        · simp only [hac]
          exact List.mem_cons_of_mem _ h
  | genResolve c' p code now =>
      show c ∈ (handleGenerateResolve s c' p code now).abortedCtrls
      unfold handleGenerateResolve
      split
      · rw [(clearRefIfSame_fields c' s).2.2.2.2]; exact h
      · rw [(clearRefIfSame_fields c' _).2.2.2.2]; exact h
  | genReject c' =>
      show c ∈ (handleGenerateReject s c').abortedCtrls
      unfold handleGenerateReject
      split
      · rw [(clearRefIfSame_fields c' s).2.2.2.2]; exact h
      · rw [(clearRefIfSame_fields c' _).2.2.2.2]; exact h
  | stop =>
      show c ∈ (handleStop s).abortedCtrls
      unfold handleStop
      cases hac : s.abortCtrl
      · simpa [hac] using h
      · simp only [hac]
        exact List.mem_cons_of_mem _ h
  | sceneEval =>
      show c ∈ (sceneEffect oracle s).abortedCtrls
      unfold sceneEffect
      split
      · exact h
      · cases hex : executeGeneratedCode (oracle s.generatedCode) <;>
          simp only [hex] <;> exact h

theorem runApp_abortedCtrls_mono (oracle : EvalOracle) (c : Nat) :
    ∀ (es : List AppEvent) (s : AppState), c ∈ s.abortedCtrls →
      c ∈ (runApp oracle s es).abortedCtrls
  | [], _, h => h
  | e :: es, s, h =>
      runApp_abortedCtrls_mono oracle c es (stepApp oracle s e)
        (abortedCtrls_mono oracle s e c h)

/-- C6: if the generation owning controller `c` is aborted — by `handleStop` or
by a new generation starting — then whatever happens next, when its remote
call later resolves successfully the resolved code is discarded: the current
generated program, the status, the current model and the history are all left
exactly as they were (only the stale controller ref may be cleared), so the
resolved code never becomes the current program or scene and is never added to
history. -/
theorem aborted_resolution_discarded (oracle : EvalOracle) (s : AppState)
    (c : Nat) (e : AppEvent)
    (habort : (e = .stop ∧ s.abortCtrl = some c)
      ∨ ∃ p, e = .genStart p ∧ s.abortCtrl = some c ∧ (jsTrim p).isEmpty = false)
    (es : List AppEvent) (p' code : List Char) (now : Nat) :
    (stepApp oracle (runApp oracle (stepApp oracle s e) es)
        (.genResolve c p' code now)).generatedCode
      = (runApp oracle (stepApp oracle s e) es).generatedCode
  ∧ (stepApp oracle (runApp oracle (stepApp oracle s e) es)
        (.genResolve c p' code now)).status
      = (runApp oracle (stepApp oracle s e) es).status
  ∧ (stepApp oracle (runApp oracle (stepApp oracle s e) es)
        (.genResolve c p' code now)).currentModel
      = (runApp oracle (stepApp oracle s e) es).currentModel
  ∧ (stepApp oracle (runApp oracle (stepApp oracle s e) es)
        (.genResolve c p' code now)).history
      = (runApp oracle (stepApp oracle s e) es).history := by
  have h1 : c ∈ (stepApp oracle s e).abortedCtrls := by
    rcases habort with ⟨he, hac⟩ | ⟨p, he, hac, hp⟩
    · subst he
      show c ∈ (handleStop s).abortedCtrls
      unfold handleStop
      simp only [hac]
      exact List.mem_cons_self _ _
    · subst he
      show c ∈ (handleGenerateStart s p).abortedCtrls
      unfold handleGenerateStart
      simp only [hp, Bool.false_eq_true, if_false, hac]
      exact List.mem_cons_self _ _
  have h2 : c ∈ (runApp oracle (stepApp oracle s e) es).abortedCtrls :=
    runApp_abortedCtrls_mono oracle c es _ h1
  have hres : stepApp oracle (runApp oracle (stepApp oracle s e) es)
      (.genResolve c p' code now)
      = clearRefIfSame c (runApp oracle (stepApp oracle s e) es) := by
    show handleGenerateResolve (runApp oracle (stepApp oracle s e) es) c p' code now = _
    unfold handleGenerateResolve
    rw [if_pos h2]
  rw [hres]
  exact ⟨(clearRefIfSame_fields c _).1, (clearRefIfSame_fields c _).2.1,
    (clearRefIfSame_fields c _).2.2.1, (clearRefIfSame_fields c _).2.2.2.1⟩

/-- Witness for C6: a concrete in-flight generation stopped by the user whose
remote call then resolves; the resolution changes none of the four state
components. -/
theorem aborted_resolution_discarded_witness :
    (stepApp oracle0 (runApp oracle0 (stepApp oracle0 appInFlight .stop) [])
        (.genResolve 0 ['x'] ['y'] 5)).generatedCode
      = (runApp oracle0 (stepApp oracle0 appInFlight .stop) []).generatedCode
  ∧ (stepApp oracle0 (runApp oracle0 (stepApp oracle0 appInFlight .stop) [])
        (.genResolve 0 ['x'] ['y'] 5)).status
      = (runApp oracle0 (stepApp oracle0 appInFlight .stop) []).status
  ∧ (stepApp oracle0 (runApp oracle0 (stepApp oracle0 appInFlight .stop) [])
        (.genResolve 0 ['x'] ['y'] 5)).currentModel
      = (runApp oracle0 (stepApp oracle0 appInFlight .stop) []).currentModel
  ∧ (stepApp oracle0 (runApp oracle0 (stepApp oracle0 appInFlight .stop) [])
        (.genResolve 0 ['x'] ['y'] 5)).history
      = (runApp oracle0 (stepApp oracle0 appInFlight .stop) []).history :=
  aborted_resolution_discarded oracle0 appInFlight 0 .stop
    (Or.inl ⟨rfl, rfl⟩) [] ['x'] ['y'] 5

/-- C1 counterexample: with scene `sceneA` current, starting a new generation
(the synchronous prefix of `handleGenerate`, App.tsx 57-59) clears the
current model to `null` before any pipeline work happens — contradicting the
claim that starting a new generation does not clear the previously current
scene. -/
theorem genStart_clears_previous_scene :
    appWithScene.currentModel = some sceneA
  ∧ (stepApp oracle0 appWithScene (.genStart ['x'])).currentModel = none :=
  ⟨rfl, rfl⟩

/-- C1 (amended): a new CanonicalScene becomes current only through a
scene-effect step whose evaluate-and-normalize run succeeds, and an
evaluation failure at that step leaves the current-model reference unchanged;
however, starting a new (non-blank) generation immediately clears the current
model to `null`, so the previously current scene does not remain current while
the new generation is in flight. -/
theorem current_scene_publication (oracle : EvalOracle) (s : AppState) :
    (executeGeneratedCode (oracle s.generatedCode) = none →
       (sceneEffect oracle s).currentModel = s.currentModel)
  ∧ (∀ e g, (stepApp oracle s e).currentModel = some g →
       s.currentModel = some g ∨
         (e = .sceneEval ∧ executeGeneratedCode (oracle s.generatedCode) = some g))
  ∧ (∀ p, (jsTrim p).isEmpty = false →
       (stepApp oracle s (.genStart p)).currentModel = none) := by
  refine ⟨?_, ?_, ?_⟩
  · intro h
    unfold sceneEffect
    split
    · rfl
    · rw [h]
  · intro e g hg
    cases e with
    | genStart p =>
        replace hg : (handleGenerateStart s p).currentModel = some g := hg
        unfold handleGenerateStart at hg
        split at hg
        · exact Or.inl hg
        · simp at hg
    | genResolve c' p code now =>
        replace hg : (handleGenerateResolve s c' p code now).currentModel = some g := hg
        unfold handleGenerateResolve at hg
        split at hg
        · rw [(clearRefIfSame_fields c' s).2.2.1] at hg
          exact Or.inl hg
        · rw [(clearRefIfSame_fields c' _).2.2.1] at hg
          exact Or.inl hg
    | genReject c' =>
        replace hg : (handleGenerateReject s c').currentModel = some g := hg
        unfold handleGenerateReject at hg
        split at hg
        · rw [(clearRefIfSame_fields c' s).2.2.1] at hg
          exact Or.inl hg
        · rw [(clearRefIfSame_fields c' _).2.2.1] at hg
          exact Or.inl hg
    | stop =>
        replace hg : (handleStop s).currentModel = some g := hg
        unfold handleStop at hg
        cases hac : s.abortCtrl <;> simp only [hac] at hg
        · exact Or.inl hg
        · exact Or.inl hg
    | sceneEval =>
        replace hg : (sceneEffect oracle s).currentModel = some g := hg
        unfold sceneEffect at hg
        split at hg
        · exact Or.inl hg
        · cases hex : executeGeneratedCode (oracle s.generatedCode) <;>
            simp only [hex] at hg
          · exact Or.inl hg
          · rename_i g'
            exact Or.inr ⟨rfl, hg⟩
  · intro p hp
    show (handleGenerateStart s p).currentModel = none
    unfold handleGenerateStart
    simp [hp]

/-- Witness for the amended C1 theorem: starting a concrete non-blank generation
from a state holding a current scene leaves the current model cleared. -/
theorem current_scene_publication_witness :
    (stepApp oracle0 appWithScene (.genStart ['y'])).currentModel = none :=
  (current_scene_publication oracle0 appWithScene).2.2 ['y'] (by decide)

end Gen3D
